import Mathlib

/-!
Verification of the resumable bulk-downloader core of the SDLE_CASFER_WWTP
repository.  The Python sources (2_dmr_download.py, 1_facility_download.py,
dmr_download.py, facility_download.py) are shallowly embedded: the filesystem
is an association list from path strings to file contents, HTTP responses are
an oracle value passed in, and every side effect of one run is recorded as an
event list (random waits, requests, cooldown sleeps).
-/

/-! ## Python string primitives -/

/-- Model of the characters stripped by the Python method str.strip with no
argument (ASCII whitespace). -/
def isPySpace (c : Char) : Bool :=
  c = ' ' || c = '\t' || c = '\n' || c = '\r' || c = '\x0B' || c = '\x0C'

/-- Strip leading and trailing whitespace from a character list. -/
def pyStripL (l : List Char) : List Char :=
  ((l.dropWhile isPySpace).reverse.dropWhile isPySpace).reverse

/-- Model of the Python method str.strip with no argument. -/
def pyStrip (s : String) : String :=
  ⟨pyStripL s.data⟩

/-- Does the character list start with the given pattern? -/
def listStartsWith : List Char → List Char → Bool
  | _, [] => true
  | [], _ :: _ => false
  | c :: cs, p :: ps => c = p && listStartsWith cs ps

/-- Does the character list contain the pattern as a contiguous run? -/
def listContainsSub : List Char → List Char → Bool
  | [], pat => pat.isEmpty
  | c :: rest, pat => listStartsWith (c :: rest) pat || listContainsSub rest pat

/-- Model of the Python expression `pat in hay` on strings. -/
def strContains (hay pat : String) : Bool :=
  listContainsSub hay.data pat.data

/-- Model of the Python method str.lower (ASCII range). -/
def pyLower (s : String) : String :=
  ⟨s.data.map Char.toLower⟩

/-- Split a character stream into the lines yielded by iterating a Python file
object, each line given without its terminating newline (the callers below
always strip the lines, so dropping the newline early is harmless).  A final
piece is produced only when nonempty, matching Python file iteration, which
yields no line after the last newline of a newline-terminated file. -/
def splitNl : List Char → List (List Char)
  | [] => []
  | c :: cs =>
    if c = '\n' then [] :: splitNl cs
    else
      match splitNl cs with
      | [] => [[c]]
      | l :: ls => (c :: l) :: ls

/-! ## URL construction (build_query_url) -/

/-- Characters that urllib quote_plus leaves unescaped. -/
def isUrlSafe (c : Char) : Bool :=
  c.isAlphanum || c = '_' || c = '.' || c = '-' || c = '~'

/-- Upper-case hexadecimal digit. -/
def hexDigit (n : Nat) : Char :=
  if n < 10 then Char.ofNat (48 + n) else Char.ofNat (55 + n)

/-- Model of urllib quote_plus on one character (ASCII range). -/
def quoteChar (c : Char) : List Char :=
  if isUrlSafe c then [c]
  else if c = ' ' then ['+']
  else ['%', hexDigit (c.toNat / 16 % 16), hexDigit (c.toNat % 16)]

/-- Model of urllib quote_plus. -/
def quotePlus (s : String) : String :=
  ⟨s.data.foldr (fun c acc => quoteChar c ++ acc) []⟩

/-- Model of urllib urlencode over an ordered parameter list. -/
def pyUrlencode (params : List (String × String)) : String :=
  String.intercalate "&" (params.map (fun p => quotePlus p.1 ++ "=" ++ quotePlus p.2))

/-- 2_dmr_download.py build_query_url. -/
def build_query_url (startDate endDate npdesId ipAddress : String) : String :=
  "https://echodata.epa.gov/echo/dmr_rest_services.get_monitoring_data_csv?" ++
    pyUrlencode [("p_start_date", startDate), ("p_end_date", endDate),
                 ("p_npdes_id", npdesId), ("p_ipaddr", ipAddress), ("output", "CSV")]

/-! ## Filesystem model -/

/-- The filesystem: an association list from absolute path to file content.
Reads see the most recent write (the head-most binding). -/
structure FS where
  files : List (String × String)
deriving DecidableEq

/-- The empty filesystem. -/
def FS.empty : FS := ⟨[]⟩

/-- Read a file, if present. -/
def FS.read (fs : FS) (p : String) : Option String :=
  (fs.files.find? (fun e => e.1 == p)).map (fun e => e.2)

/-- Model of os.path.exists. -/
def FS.pathExists (fs : FS) (p : String) : Bool :=
  (fs.read p).isSome

/-- Model of open(p, "w") followed by a whole-file write. -/
def FS.write (fs : FS) (p c : String) : FS :=
  ⟨(p, c) :: fs.files⟩

/-- Model of open(p, "a") followed by a write: appends to the existing
content, creating the file when absent. -/
def FS.append (fs : FS) (p c : String) : FS :=
  fs.write p ((fs.read p).getD "" ++ c)

/-- Model of os.path.join for the relative second components used here. -/
def pyJoin (a b : String) : String := a ++ "/" ++ b

/-! ## 2_dmr_download.py: paths, classification, download -/

/-- Path of the per-NPDES success artifact:
{output_dir}/2_dmr_download/{year}/{state}/{npdes_id}.csv. -/
def dmrFilePath (od st yr id : String) : String :=
  pyJoin (pyJoin (pyJoin (pyJoin od "2_dmr_download") yr) st) (id ++ ".csv")

/-- Path of the per-NPDES quarantine artifact:
{output_dir}/2_dmr_download/error_html/{year}/{state}/{npdes_id}.html. -/
def dmrErrorPath (od st yr id : String) : String :=
  pyJoin (pyJoin (pyJoin (pyJoin (pyJoin od "2_dmr_download") "error_html") yr) st)
    (id ++ ".html")

/-- The raw result of requests.get: either a completed response with a status
code and a body text, or a raised transport exception (connection error,
timeout, ...). -/
inductive HttpResult where
  | ok (status : Nat) (body : String)
  | exn
deriving DecidableEq

/-- The classification of a response by the downloader. -/
inductive Outcome where
  | Success (body : String)
  | NoDataAvailable (body : String)
  | TransportFailure
deriving DecidableEq

/-- Condition under which response.raise_for_status() raises HTTPError. -/
def raisesForStatus (s : Nat) : Bool :=
  decide (400 ≤ s ∧ s < 600)

/-- The error-page test of 2_dmr_download.py line 114:
"FILE OUTPUT FAILED" in response.text or "<html" in response.text.lower(). -/
def isErrorPage (body : String) : Bool :=
  strContains body "FILE OUTPUT FAILED" || strContains (pyLower body) "<html"

/-- The fetch-and-classify step of download_data_for_npdes, as the code
performs it: an exception or a raising status is a transport failure, then the
error-page test, then success. -/
def classify_response : HttpResult → Outcome
  | .exn => .TransportFailure
  | .ok s body =>
    if raisesForStatus s then .TransportFailure
    else if isErrorPage body then .NoDataAvailable body
    else .Success body

/-- Observable side-effect events of one run, in order. -/
inductive Ev where
  | randomWait (lo hi : Nat)
  | request (url : String)
  | cooldown (secs : Nat)
deriving DecidableEq

/-- A primitive filesystem action of the success branch. -/
inductive FsAction where
  | writeF (path content : String)
  | appendF (path content : String)
deriving DecidableEq

/-- Apply one primitive filesystem action. -/
def applyAction (fs : FS) : FsAction → FS
  | .writeF p c => fs.write p c
  | .appendF p c => fs.append p c

/-- The two filesystem actions of the success branch of
download_data_for_npdes, in program order: first the whole-file artifact
write (line 126), then the checkpoint append of the id plus a newline
(line 132). -/
def successActions (od st yr id cp body : String) : List FsAction :=
  [FsAction.writeF (dmrFilePath od st yr id) body,
   FsAction.appendF cp (id ++ "\n")]

/-- 2_dmr_download.py download_data_for_npdes.  The HTTP response is supplied
as an oracle value; the function returns the updated filesystem and the event
list (waits, the request, cooldowns) it performed. -/
def download_data_for_npdes (resp : HttpResult)
    (npdesId startDate endDate ipAddress od st yr cp : String) (fs : FS) :
    FS × List Ev :=
  let fp := dmrFilePath od st yr npdesId
  if fs.pathExists fp then (fs, [])
  else
    let url := build_query_url startDate endDate npdesId ipAddress
    let pre := [Ev.randomWait 3 10, Ev.request url]
    match resp with
    | .exn => (fs, pre ++ [Ev.cooldown 30])
    | .ok s body =>
      if raisesForStatus s then (fs, pre ++ [Ev.cooldown 30])
      else if isErrorPage body then
        (fs.write (dmrErrorPath od st yr npdesId) body, pre)
      else
        ((successActions od st yr npdesId cp body).foldl applyAction fs,
         pre ++ [Ev.randomWait 10 30])

/-- Parse the checkpoint file content as process_npdes_ids does:
set(line.strip() for line in f), kept as the list of stripped lines. -/
def ckLines (s : String) : List String :=
  (splitNl s.data).map (fun l => pyStrip ⟨l⟩)

/-- The completed-ids set loaded by process_npdes_ids lines 146-149. -/
def loadCompleted (fs : FS) (cp : String) : List String :=
  match fs.read cp with
  | some c => ckLines c
  | none => []

/-- The per-id loop of process_npdes_ids lines 151-155, with the completed
set already loaded. -/
def processLoop (resp : String → HttpResult) (completed : List String)
    (startDate endDate ipAddress od st yr cp : String) :
    List String → FS → FS × List Ev
  | [], fs => (fs, [])
  | id :: rest, fs =>
    if completed.contains id then
      processLoop resp completed startDate endDate ipAddress od st yr cp rest fs
    else
      let r := download_data_for_npdes (resp id) id startDate endDate ipAddress
        od st yr cp fs
      let r2 := processLoop resp completed startDate endDate ipAddress od st yr cp
        rest r.1
      (r2.1, r.2 ++ r2.2)

/-- 2_dmr_download.py process_npdes_ids: load the checkpoint set, then loop
over the NPDES ids. -/
def process_npdes_ids (resp : String → HttpResult) (npdesIds : List String)
    (startDate endDate ipAddress od st yr cp : String) (fs : FS) : FS × List Ev :=
  processLoop resp (loadCompleted fs cp) startDate endDate ipAddress od st yr cp
    npdesIds fs

/-- Number of network requests recorded in an event list. -/
def countRequests (evs : List Ev) : Nat :=
  (evs.filter (fun e => match e with | .request _ => true | _ => false)).length

/-! ## 1_facility_download.py: top-level (year, region) crawl -/

/-- Model of the Python method str.isdigit (ASCII digits). -/
def pyIsDigit (s : String) : Bool :=
  !s.isEmpty && s.data.all Char.isDigit

/-- Parse a digit-only string as Python int does. -/
def strToNat (s : String) : Nat :=
  s.data.foldl (fun n c => n * 10 + (c.toNat - 48)) 0

/-- 1_facility_download.py build_facility_query_url. -/
def build_facility_query_url (year : Nat) (state ipAddress : String) : String :=
  "https://echodata.epa.gov/echo/dmr_rest_services.get_custom_data_annual?" ++
    pyUrlencode [("p_lod", "ann"), ("p_year", toString year), ("p_st", state),
                 ("p_loads_data", "dmr"), ("p_nd", "zero"), ("p_est", "Y"),
                 ("p_param_group", "N"), ("p_nutrient_agg", "N"),
                 ("p_ipaddr", ipAddress), ("output", "CSV"),
                 ("qcolumns", String.intercalate "," ((List.range' 1 80).map toString))]

/-- Path of the top-level success artifact: {output_dir}/{state}/{year}_{state}.csv. -/
def facilityFilePath (od st : String) (yr : Nat) : String :=
  pyJoin (pyJoin od st) (toString yr ++ "_" ++ st ++ ".csv")

/-- 1_facility_download.py download_facility_data (lines 58-84).  Note: this
variant performs no error-page classification and no exists-check; any 2xx
body is written to the success path and True is returned. -/
def download_facility_data (resp : HttpResult) (yr : Nat) (st ipAddress od : String)
    (fs : FS) : FS × List Ev × Bool :=
  let url := build_facility_query_url yr st ipAddress
  let pre := [Ev.randomWait 3 10, Ev.request url]
  match resp with
  | .exn => (fs, pre ++ [Ev.cooldown 30], false)
  | .ok s body =>
    if raisesForStatus s then (fs, pre ++ [Ev.cooldown 30], false)
    else (fs.write (facilityFilePath od st yr) body, pre ++ [Ev.randomWait 10 30], true)

/-- The completed-years set loaded by 1_facility_download.py main lines
112-119: the integer values of checkpoint lines whose stripped form is all
digits. -/
def facilityCompleted (fs : FS) (cp : String) : List Nat :=
  match fs.read cp with
  | some c => (((splitNl c.data).map (fun l => pyStrip ⟨l⟩)).filter pyIsDigit).map strToNat
  | none => []

/-- The main loop of 1_facility_download.py lines 124-135, with the
completed-years set already loaded: skip completed years, otherwise download
and, on success, append the year to the checkpoint file. -/
def facilityLoop (resp : Nat → HttpResult) (st ipAddress od cp : String)
    (completed : List Nat) : List Nat → FS → FS × List Ev
  | [], fs => (fs, [])
  | yr :: rest, fs =>
    if completed.contains yr then
      facilityLoop resp st ipAddress od cp completed rest fs
    else
      let r := download_facility_data (resp yr) yr st ipAddress od fs
      let fs' := if r.2.2 then r.1.append cp (toString yr ++ "\n") else r.1
      let r2 := facilityLoop resp st ipAddress od cp completed rest fs'
      (r2.1, r.2.1 ++ r2.2)

/-- 1_facility_download.py main, with the year range and path constants as
parameters: load the checkpoint, then run the year loop. -/
def facility_main (resp : Nat → HttpResult) (st ipAddress od cp : String)
    (years : List Nat) (fs : FS) : FS × List Ev :=
  facilityLoop resp st ipAddress od cp (facilityCompleted fs cp) years fs

/-- The year range of 1_facility_download.py line 100: range(2000, 2026). -/
def facilityYears : List Nat := List.range' 2000 26

/-! ## 2_dmr_download.py main: listing-file visit order -/

/-- Model of str.endsWith on the character level. -/
def strEndsWith (s pat : String) : Bool :=
  listStartsWith s.data.reverse pat.data.reverse

/-- filename.split( the underscore )[0]: the run of characters before the
first underscore, or the whole name when none occurs. -/
def dmrYearOf (filename : String) : String :=
  ⟨filename.data.takeWhile (fun c => c ≠ '_')⟩

/-- The sequence of year strings whose listing files 2_dmr_download.py main
(lines 195-205) hands to read_npdes_file, in order: the os.listdir result is
traversed as given, filenames ending in _{state}.csv are kept, and the year
prefix must be all digits. -/
def dmr_visit_years (st : String) (listing : List String) : List String :=
  listing.filterMap (fun filename =>
    if strEndsWith filename ("_" ++ st ++ ".csv") then
      let yr := dmrYearOf filename
      if pyIsDigit yr then some yr else none
    else none)

/-! ## Signal handlers -/

/-- What a signal handler does before returning or raising. -/
inductive SigAction where
  | logInfo (msg : String)
  | printMsg (msg : String)
deriving DecidableEq

/-- The observable outcome of delivering SIGUSR1. -/
inductive SigOutcome where
  | exitProcess (code : Nat) (acts : List SigAction)
  | nameError
deriving DecidableEq

/-- 2_dmr_download.py handle_sigusr1 (lines 163-170): the module-level logger
starts as None and is assigned by main via a global statement; the handler
logs when it is set, falls back to print otherwise, then calls sys.exit(0). -/
def handle_sigusr1_dmr2 (loggerSet : Bool) : SigOutcome :=
  if loggerSet then
    .exitProcess 0 [.logInfo "Received SIGUSR1 from SLURM: Exiting cleanly for requeue..."]
  else
    .exitProcess 0 [.printMsg "Received SIGUSR1 from SLURM: Exiting cleanly for requeue..."]

/-- facility_download.py handle_sigusr1 (lines 107-109): the handler
dereferences the module-level name logger unconditionally; when that name is
unbound the dereference raises NameError before sys.exit is reached. -/
def handle_sigusr1_facility (loggerBound : Bool) : SigOutcome :=
  if loggerBound then
    .exitProcess 0 [.logInfo "Received SIGUSR1: Saving progress and exiting..."]
  else .nameError

/-- Whether facility_download.py ever binds the module-level name logger:
it does not — main stores setup_logging(output_dir) in a function-local
variable and has no global statement, so the handler always sees the name
unbound. -/
def facility_logger_bound : Bool := false

/-! ## read_npdes_file: CSV listing parsing -/

/-- Drop one Python file line: everything up to and including the first
newline, or everything when no newline remains. -/
def dropLine : List Char → List Char
  | [] => []
  | '\n' :: rest => rest
  | _ :: rest => dropLine rest

/-- Model of calling next(file) n times: none when the iterator is exhausted
first (StopIteration), otherwise the remaining stream. -/
def skipLines : Nat → List Char → Option (List Char)
  | 0, cs => some cs
  | _ + 1, [] => none
  | n + 1, cs => skipLines n (dropLine cs)

/-- Character-level scanner for the Python csv module default dialect:
comma delimiter, double-quote quoting, doubled quotes inside quoted fields,
newlines allowed inside quoted fields, blank lines yielding empty records.
Arguments: input, inside-quotes flag, current field (reversed), completed
fields of the record (reversed), whether the record has consumed a char. -/
def csvScan : List Char → Bool → List Char → List (List Char) → Bool →
    List (List (List Char))
  | [], inQ, field, fields, seen =>
    if seen || inQ || !field.isEmpty || !fields.isEmpty then
      [(field.reverse :: fields).reverse]
    else []
  | '\"' :: '\"' :: rest2, true, field, fields, seen =>
    csvScan rest2 true ('\"' :: field) fields seen
  | '\"' :: rest, true, field, fields, seen =>
    csvScan rest false field fields seen
  | '\"' :: rest, false, field, fields, _ =>
    if field.isEmpty then csvScan rest true field fields true
    else csvScan rest false ('\"' :: field) fields true
  | ',' :: rest, true, field, fields, seen =>
    csvScan rest true (',' :: field) fields seen
  | ',' :: rest, false, field, fields, _ =>
    csvScan rest false [] (field.reverse :: fields) true
  | '\n' :: rest, true, field, fields, seen =>
    csvScan rest true ('\n' :: field) fields seen
  | '\n' :: rest, false, field, fields, seen =>
    if seen || !field.isEmpty || !fields.isEmpty then
      (field.reverse :: fields).reverse :: csvScan rest false [] [] false
    else [] :: csvScan rest false [] [] false
  | c :: rest, inQ, field, fields, _ =>
    csvScan rest inQ (c :: field) fields true

/-- The records of a csv.reader over the given character stream. -/
def csvRecords (cs : List Char) : List (List String) :=
  (csvScan cs false [] [] false).map (fun r => r.map (fun f => (⟨f⟩ : String)))

/-- Index of the last occurrence of a name in the header, mirroring the
last-wins behavior of building a dict from zipped (fieldname, value) pairs. -/
def lastIdxOf (l : List String) (x : String) : Option Nat :=
  (l.foldl (fun acc s => (acc.1 + 1, if s == x then some acc.1 else acc.2))
    ((0 : Nat), (none : Option Nat))).2

/-- row.get(col, default) through the DictReader row dict: none when the
column is not a fieldname (the default applies); some none when the column is
a fieldname but the row is too short (restval None); some (some v) otherwise. -/
def dictGet (header row : List String) (col : String) : Option (Option String) :=
  match lastIdxOf header col with
  | none => none
  | some i =>
    match row.get? i with
    | some v => some (some v)
    | none => some none

/-- Exceptions the reading path can raise. -/
inductive PyError where
  | stopIteration
  | attributeError
deriving DecidableEq

/-- The row loop of read_npdes_file: DictReader skips empty records; the
NPDES Permit Number cell is stripped and kept when nonempty; a missing cell
backed by restval None makes the .strip() call raise AttributeError. -/
def extractIds (header : List String) : List (List String) → Except PyError (List String)
  | [] => .ok []
  | row :: rows =>
    if row.isEmpty then extractIds header rows
    else
      match dictGet header row "NPDES Permit Number" with
      | none => extractIds header rows
      | some none => .error .attributeError
      | some (some v) =>
        let id := pyStrip v
        match extractIds header rows with
        | .error e => .error e
        | .ok ids => .ok (if id ≠ "" then id :: ids else ids)

/-- A Python file handle: a name on disk and the content behind it. -/
structure PyFile where
  name : String
  content : String

/-- 2_dmr_download.py read_npdes_file (lines 60-72): skip three header lines,
drop null bytes, run csv.DictReader over the rest, and collect the nonempty
stripped NPDES Permit Number cells in order. -/
def read_npdes_file (f : PyFile) : Except PyError (List String) :=
  match skipLines 3 f.content.data with
  | none => .error .stopIteration
  | some rest =>
    let cleaned := rest.filter (fun c => c ≠ '\x00')
    match csvRecords cleaned with
    | [] => .ok []
    | header :: rows => extractIds header rows

example : strContains "xx FILE OUTPUT FAILED yy" "FILE OUTPUT FAILED" = true := by decide
example : strContains "file output failed" "FILE OUTPUT FAILED" = false := by decide
example : isErrorPage "abc <HTML> def" = true := by decide
example : classify_response (HttpResult.ok 200 "file output failed") =
    Outcome.Success "file output failed" := by decide
example : classify_response (HttpResult.ok 500 "x") = Outcome.TransportFailure := by decide
example : ckLines "A\nB\n" = ["A", "B"] := by decide
example : ckLines "" = [] := by decide
example : csvRecords "a,b\n1,\"x,y\"\n".data = [["a", "b"], ["1", "x,y"]] := rfl
example : csvRecords "a\n\nb\n".data = [["a"], [], ["b"]] := rfl
example : read_npdes_file ⟨"f", "h1\nh2\nh3\nX,NPDES Permit Number\n1, OH77 \n2,\n"⟩ =
    Except.ok ["OH77"] := rfl
example : read_npdes_file ⟨"f", "h1\nh2\n"⟩ = Except.error PyError.stopIteration := rfl
example : dmr_visit_years "OH" ["2001_OH.csv", "x.txt", "2000_OH.csv", "20a_OH.csv"] =
    ["2001", "2000"] := by decide
example : facilityCompleted (FS.write FS.empty "cp" "2000\nabc\n2001\n") "cp" =
    [2000, 2001] := by decide

/-! ## Filesystem lemmas -/

theorem FS.read_write (fs : FS) (p c q : String) :
    (fs.write p c).read q = if p = q then some c else fs.read q := by
  by_cases h : p = q
  · simp [FS.read, FS.write, List.find?, h]
  · have hb : (p == q) = false := by simpa using h
    simp [FS.read, FS.write, List.find?, h, hb]

theorem FS.read_append (fs : FS) (p c q : String) :
    (fs.append p c).read q =
      if p = q then some ((fs.read p).getD "" ++ c) else fs.read q := by
  simp [FS.append, FS.read_write]

theorem FS.read_write_same (fs : FS) (p c : String) :
    (fs.write p c).read p = some c := by
  simp [FS.read_write]

theorem FS.read_write_other (fs : FS) (p c q : String) (h : p ≠ q) :
    (fs.write p c).read q = fs.read q := by
  simp [FS.read_write, h]

/-- Rewriting content that is already there changes nothing observable. -/
theorem FS.read_write_self (fs : FS) (p c : String) (h : fs.read p = some c) (q : String) :
    (fs.write p c).read q = fs.read q := by
  rcases eq_or_ne p q with rfl | hne
  · simp [FS.read_write, h]
  · simp [FS.read_write, hne]

/-! ## Path disjointness and injectivity -/

theorem dmrFilePath_ne_errorPath (od st yr id od2 st2 yr2 id2 : String) :
    dmrFilePath od st yr id ≠ dmrErrorPath od2 st2 yr2 id2 := by
  intro h
  have h1 : (dmrFilePath od st yr id).data.reverse.head? = some 'v' := by
    simp [dmrFilePath, pyJoin, String.data_append, List.reverse_append]
  have h2 : (dmrErrorPath od2 st2 yr2 id2).data.reverse.head? = some 'l' := by
    simp [dmrErrorPath, pyJoin, String.data_append, List.reverse_append]
  rw [h] at h1
  rw [h1] at h2
  exact absurd h2 (by decide)

theorem dmrFilePath_inj (od st yr id id2 : String)
    (h : dmrFilePath od st yr id = dmrFilePath od st yr id2) : id = id2 := by
  have h1 := congrArg (fun s => s.data.reverse) h
  simp [dmrFilePath, pyJoin, String.data_append, List.reverse_append] at h1
  exact String.ext (by simpa using congrArg List.reverse h1)

theorem dmrErrorPath_inj (od st yr id id2 : String)
    (h : dmrErrorPath od st yr id = dmrErrorPath od st yr id2) : id = id2 := by
  have h1 := congrArg (fun s => s.data.reverse) h
  simp [dmrErrorPath, pyJoin, String.data_append, List.reverse_append] at h1
  exact String.ext (by simpa using congrArg List.reverse h1)

/-! ## Checkpoint-file lemmas -/

theorem splitNl_ne_nil (c : Char) (cs : List Char) : splitNl (c :: cs) ≠ [] := by
  rw [splitNl]
  split
  · simp
  · split <;> simp

theorem splitNl_line (k : List Char) (hk : '\n' ∉ k) : splitNl (k ++ ['\n']) = [k] := by
  induction k with
  | nil => rfl
  | cons a k ih =>
    have ha : a ≠ '\n' := fun e => hk (e ▸ List.mem_cons_self a k)
    have hk2 : '\n' ∉ k := fun m => hk (List.mem_cons_of_mem a m)
    simp [splitNl, ha, ih hk2]

theorem splitNl_cons_nl (cs : List Char) : splitNl ('\n' :: cs) = [] :: splitNl cs := by
  rw [splitNl]
  simp

theorem splitNl_cons_other (a : Char) (cs : List Char) (ha : a ≠ '\n') :
    splitNl (a :: cs) =
      match splitNl cs with
      | [] => [[a]]
      | l :: ls => (a :: l) :: ls := by
  rw [splitNl]
  simp [ha]

theorem splitNl_append_line (c k : List Char) (hk : '\n' ∉ k)
    (hc : c = [] ∨ c.getLast? = some '\n') :
    splitNl (c ++ (k ++ ['\n'])) = splitNl c ++ [k] := by
  induction c with
  | nil => simpa using splitNl_line k hk
  | cons a c ih =>
    rcases hc with hc | hc
    · simp at hc
    · cases c with
      | nil =>
        have ha : a = '\n' := by simpa using hc
        subst ha
        simp [splitNl_cons_nl, splitNl_line k hk, splitNl]
      | cons b c2 =>
        have hc2 : (b :: c2).getLast? = some '\n' := by
          simpa [List.getLast?_cons_cons] using hc
        have ih2 := ih (Or.inr hc2)
        by_cases ha : a = '\n'
        · subst ha
          rw [List.cons_append, splitNl_cons_nl, splitNl_cons_nl, ih2]
          simp
        · obtain ⟨l, ls, hls⟩ := List.exists_cons_of_ne_nil (splitNl_ne_nil b c2)
          rw [List.cons_append, splitNl_cons_other a _ ha, splitNl_cons_other a _ ha,
            ih2, hls]
          simp

/-- A string is newline terminated when it is empty or its last character is
a newline.  Every checkpoint write the program performs appends a
newline-terminated line, so checkpoint files are always in this shape. -/
def nlTerminated (c : String) : Prop :=
  c = "" ∨ c.data.getLast? = some '\n'

instance (c : String) : Decidable (nlTerminated c) := by
  unfold nlTerminated
  exact inferInstance

/-- The checkpoint file of the given filesystem is newline terminated (a
missing file counts as empty). -/
def ckWF (fs : FS) (cp : String) : Prop :=
  nlTerminated ((fs.read cp).getD "")

theorem ckLines_append (c k : String) (hk : '\n' ∉ k.data) (hc : nlTerminated c) :
    ckLines (c ++ (k ++ "\n")) = ckLines c ++ [pyStrip k] := by
  have hnl : ("\n" : String).data = ['\n'] := rfl
  have hdata : (c ++ (k ++ "\n")).data = c.data ++ (k.data ++ ['\n']) := by
    simp [String.data_append, hnl]
  have hc2 : c.data = [] ∨ c.data.getLast? = some '\n' := by
    rcases hc with h | h
    · left
      rw [h]
    · right
      exact h
  unfold ckLines
  rw [hdata, splitNl_append_line c.data k.data hk hc2]
  simp [pyStrip]

theorem loadCompleted_eq (fs : FS) (cp : String) :
    loadCompleted fs cp = ckLines ((fs.read cp).getD "") := by
  unfold loadCompleted
  cases h : fs.read cp <;> simp [ckLines, splitNl]

theorem loadCompleted_after_append (fs : FS) (cp id : String)
    (hid : '\n' ∉ id.data) (hwf : ckWF fs cp) :
    loadCompleted (fs.append cp (id ++ "\n")) cp = loadCompleted fs cp ++ [pyStrip id] := by
  rw [loadCompleted_eq, loadCompleted_eq, FS.read_append]
  simp only [if_pos rfl, Option.getD_some]
  exact ckLines_append _ id hid hwf

theorem ckWF_append (fs : FS) (cp id : String) :
    ckWF (fs.append cp (id ++ "\n")) cp := by
  unfold ckWF nlTerminated
  right
  rw [FS.read_append]
  have hnl : ("\n" : String).data = ['\n'] := rfl
  simp [String.data_append, hnl, List.getLast?_append]

theorem ckWF_write_other (fs : FS) (cp p c : String) (h : p ≠ cp) (hwf : ckWF fs cp) :
    ckWF (fs.write p c) cp := by
  unfold ckWF at *
  rwa [FS.read_write_other _ _ _ _ h]

theorem loadCompleted_write_other (fs : FS) (cp p c : String) (h : p ≠ cp) :
    loadCompleted (fs.write p c) cp = loadCompleted fs cp := by
  rw [loadCompleted_eq, loadCompleted_eq, FS.read_write_other _ _ _ _ h]

/-! ## Claim C10: checkpoint append/load round trip -/

/-- C10: for an entity id k with no surrounding whitespace and no newline,
appending k to the checkpoint file (writing the line k plus a newline) and
loading yields a set containing k, and appending the same k a second time
leaves the loaded set unchanged. -/
theorem C10_checkpoint_roundtrip (fs : FS) (cp k : String)
    (hstrip : pyStrip k = k) (hnl : '\n' ∉ k.data) (hwf : ckWF fs cp) :
    k ∈ loadCompleted (fs.append cp (k ++ "\n")) cp ∧
    ∀ x, (x ∈ loadCompleted ((fs.append cp (k ++ "\n")).append cp (k ++ "\n")) cp ↔
      x ∈ loadCompleted (fs.append cp (k ++ "\n")) cp) := by
  have h1 := loadCompleted_after_append fs cp k hnl hwf
  have h2 := loadCompleted_after_append (fs.append cp (k ++ "\n")) cp k hnl
    (ckWF_append fs cp k)
  constructor
  · rw [h1, hstrip]
    simp
  · intro x
    rw [h2, h1, hstrip]
    simp [List.mem_append, or_assoc]

/-- C10 witness: a concrete instance of the round trip. -/
theorem C10_checkpoint_roundtrip_witness :
    (pyStrip "OH0012345" = "OH0012345" ∧ '\n' ∉ "OH0012345".data ∧ ckWF FS.empty "cp") ∧
    "OH0012345" ∈ loadCompleted (FS.empty.append "cp" ("OH0012345" ++ "\n")) "cp" :=
  ⟨⟨by decide, by decide, Or.inl rfl⟩,
   (C10_checkpoint_roundtrip FS.empty "cp" "OH0012345" (by decide) (by decide)
     (Or.inl rfl)).1⟩

/-! ## Claim C9: derived work-key enumeration is deterministic -/

/-- C9: read_npdes_file depends only on the listing-file content: two files
with identical content yield the same id list in the same order. -/
theorem C9_read_npdes_deterministic (f g : PyFile) (h : f.content = g.content) :
    read_npdes_file f = read_npdes_file g := by
  unfold read_npdes_file
  rw [h]

/-- C9 witness: two distinctly named files with the same content parse to
the same id list. -/
theorem C9_read_npdes_deterministic_witness :
    (PyFile.mk "run1/2000_OH.csv" "h1\nh2\nh3\nNPDES Permit Number\nOH1\nOH2\n").content =
      (PyFile.mk "run2/2000_OH.csv" "h1\nh2\nh3\nNPDES Permit Number\nOH1\nOH2\n").content ∧
    read_npdes_file (PyFile.mk "run1/2000_OH.csv" "h1\nh2\nh3\nNPDES Permit Number\nOH1\nOH2\n") =
      read_npdes_file (PyFile.mk "run2/2000_OH.csv" "h1\nh2\nh3\nNPDES Permit Number\nOH1\nOH2\n") :=
  ⟨rfl, C9_read_npdes_deterministic _ _ rfl⟩

/-! ## Claim C1: classification of error-marker bodies and 500 responses -/

/-- C1 counterexample: a 200 response whose body is the lower-case string
"file output failed" (and contains no html tag) is classified Success by the
code — the marker test of line 114 is case sensitive — and the download step
writes the success artifact, not the quarantine artifact. -/
theorem C1_lowercase_marker_counterexample :
    classify_response (HttpResult.ok 200 "file output failed") =
      Outcome.Success "file output failed" ∧
    (download_data_for_npdes (HttpResult.ok 200 "file output failed") "OHX" "01/01/2000"
        "12/31/2000" "1.2.3.4" "/out" "OH" "2000" "/ck/OH_2000_progress.txt" FS.empty).1.read
      (dmrFilePath "/out" "OH" "2000" "OHX") = some "file output failed" ∧
    (download_data_for_npdes (HttpResult.ok 200 "file output failed") "OHX" "01/01/2000"
        "12/31/2000" "1.2.3.4" "/out" "OH" "2000" "/ck/OH_2000_progress.txt" FS.empty).1.read
      (dmrErrorPath "/out" "OH" "2000" "OHX") = none := by
  refine ⟨by decide, ?_, ?_⟩ <;> decide

/-- C1 (amended): for every 2xx response whose body contains the exact
case-sensitive substring FILE OUTPUT FAILED, or contains <html in any letter
casing, the fetch-and-classify step yields NoDataAvailable and never Success,
and the download step writes the quarantine artifact and leaves the success
path untouched; every 500-status response yields TransportFailure. -/
theorem C1_classification_amended (s : Nat) (body : String)
    (h2xx : 200 ≤ s ∧ s < 300)
    (hmark : strContains body "FILE OUTPUT FAILED" = true ∨
      strContains (pyLower body) "<html" = true) :
    classify_response (HttpResult.ok s body) = Outcome.NoDataAvailable body ∧
    (∀ b, classify_response (HttpResult.ok s body) ≠ Outcome.Success b) ∧
    (∀ b, classify_response (HttpResult.ok 500 b) = Outcome.TransportFailure) ∧
    (∀ npdesId startDate endDate ipAddress od st yr cp fs,
      FS.pathExists fs (dmrFilePath od st yr npdesId) = false →
      (download_data_for_npdes (HttpResult.ok s body) npdesId startDate endDate
          ipAddress od st yr cp fs).1.read (dmrErrorPath od st yr npdesId) = some body ∧
      (download_data_for_npdes (HttpResult.ok s body) npdesId startDate endDate
          ipAddress od st yr cp fs).1.read (dmrFilePath od st yr npdesId) =
        fs.read (dmrFilePath od st yr npdesId)) := by
  have hraise : raisesForStatus s = false := by
    simp only [raisesForStatus, decide_eq_false_iff_not]
    omega
  have herr : isErrorPage body = true := by
    unfold isErrorPage
    rcases hmark with h | h <;> simp [h]
  refine ⟨?_, ?_, ?_, ?_⟩
  · simp [classify_response, hraise, herr]
  · intro b
    simp [classify_response, hraise, herr]
  · intro b
    simp [classify_response, raisesForStatus]
  · intro npdesId startDate endDate ipAddress od st yr cp fs hex
    unfold download_data_for_npdes
    simp only [hex, Bool.false_eq_true, if_false, hraise, herr, if_true]
    constructor
    · exact FS.read_write_same _ _ _
    · exact FS.read_write_other _ _ _ _
        (Ne.symm (dmrFilePath_ne_errorPath od st yr npdesId od st yr npdesId))

/-- C1 witness: the amended classification at a concrete 200 response whose
body carries the upper-case marker. -/
theorem C1_classification_amended_witness :
    (200 ≤ 200 ∧ 200 < 300) ∧
    (strContains "FILE OUTPUT FAILED: no rows" "FILE OUTPUT FAILED" = true ∨
      strContains (pyLower "FILE OUTPUT FAILED: no rows") "<html" = true) ∧
    classify_response (HttpResult.ok 200 "FILE OUTPUT FAILED: no rows") =
      Outcome.NoDataAvailable "FILE OUTPUT FAILED: no rows" :=
  ⟨⟨by decide, by decide⟩, Or.inl (by decide),
    (C1_classification_amended 200 "FILE OUTPUT FAILED: no rows" ⟨by decide, by decide⟩
      (Or.inl (by decide))).1⟩

/-! ## Claim C8: SIGUSR1 handler -/

/-- C8: in facility_download.py the registered SIGUSR1 handler dereferences
the never-bound module-level name logger and so raises NameError instead of
logging and exiting with status 0; the corrected variant in 2_dmr_download.py
exits 0 whether or not the logger has been initialized. -/
theorem C8_facility_handler_name_error :
    handle_sigusr1_facility facility_logger_bound = SigOutcome.nameError ∧
    handle_sigusr1_dmr2 true = SigOutcome.exitProcess 0
      [SigAction.logInfo "Received SIGUSR1 from SLURM: Exiting cleanly for requeue..."] ∧
    handle_sigusr1_dmr2 false = SigOutcome.exitProcess 0
      [SigAction.printMsg "Received SIGUSR1 from SLURM: Exiting cleanly for requeue..."] :=
  ⟨rfl, rfl, rfl⟩

/-! ## Claim C5: NoDataAvailable is quarantined, never checkpointed -/

/-- C5: a key classified NoDataAvailable gets its quarantine artifact at the
parallel error_html path, no checkpoint append happens, both skip conditions
(checkpoint membership, success-artifact existence) are unchanged, and a
subsequent run performs the request for the key again. -/
theorem C5_nodata_requeued (s : Nat) (body : String)
    (npdesId startDate endDate ipAddress od st yr cp : String) (fs : FS)
    (hs : raisesForStatus s = false) (hbody : isErrorPage body = true)
    (hex : fs.pathExists (dmrFilePath od st yr npdesId) = false)
    (hcp : cp ≠ dmrErrorPath od st yr npdesId) :
    classify_response (HttpResult.ok s body) = Outcome.NoDataAvailable body ∧
    (download_data_for_npdes (HttpResult.ok s body) npdesId startDate endDate ipAddress
        od st yr cp fs).1 = fs.write (dmrErrorPath od st yr npdesId) body ∧
    (fs.write (dmrErrorPath od st yr npdesId) body).read (dmrErrorPath od st yr npdesId) =
      some body ∧
    (fs.write (dmrErrorPath od st yr npdesId) body).read cp = fs.read cp ∧
    loadCompleted (fs.write (dmrErrorPath od st yr npdesId) body) cp =
      loadCompleted fs cp ∧
    (fs.write (dmrErrorPath od st yr npdesId) body).pathExists (dmrFilePath od st yr npdesId) =
      false ∧
    Ev.request (build_query_url startDate endDate npdesId ipAddress) ∈
      (download_data_for_npdes (HttpResult.ok s body) npdesId startDate endDate ipAddress
        od st yr cp (fs.write (dmrErrorPath od st yr npdesId) body)).2 := by
  have hne : dmrErrorPath od st yr npdesId ≠ dmrFilePath od st yr npdesId :=
    Ne.symm (dmrFilePath_ne_errorPath od st yr npdesId od st yr npdesId)
  have hex2 : (fs.write (dmrErrorPath od st yr npdesId) body).pathExists
      (dmrFilePath od st yr npdesId) = false := by
    unfold FS.pathExists
    rw [FS.read_write_other _ _ _ _ hne]
    exact hex
  refine ⟨?_, ?_, ?_, ?_, ?_, hex2, ?_⟩
  · simp [classify_response, hs, hbody]
  · unfold download_data_for_npdes
    simp [hex, hs, hbody]
  · exact FS.read_write_same _ _ _
  · exact FS.read_write_other _ _ _ _ (Ne.symm hcp)
  · exact loadCompleted_write_other _ _ _ _ (Ne.symm hcp)
  · unfold download_data_for_npdes
    simp [hex2, hs, hbody]

/-- C5 witness: a concrete NoDataAvailable response. -/
theorem C5_nodata_requeued_witness :
    (raisesForStatus 200 = false ∧ isErrorPage "<html>sorry</html>" = true ∧
      FS.pathExists FS.empty (dmrFilePath "/out" "OH" "2000" "OHX") = false ∧
      "/ck/p.txt" ≠ dmrErrorPath "/out" "OH" "2000" "OHX") ∧
    (download_data_for_npdes (HttpResult.ok 200 "<html>sorry</html>") "OHX" "01/01/2000"
        "12/31/2000" "1.2.3.4" "/out" "OH" "2000" "/ck/p.txt" FS.empty).1 =
      FS.write FS.empty (dmrErrorPath "/out" "OH" "2000" "OHX") "<html>sorry</html>" :=
  ⟨⟨by decide, by decide, by decide, by decide⟩,
    (C5_nodata_requeued 200 "<html>sorry</html>" "OHX" "01/01/2000" "12/31/2000" "1.2.3.4"
      "/out" "OH" "2000" "/ck/p.txt" FS.empty (by decide) (by decide) (by decide)
      (by decide)).2.1⟩

/-! ## Claim C6: transport failures are recovered locally -/

/-- C6: a fetch that raises a transport exception, or returns a status that
raise_for_status rejects, leaves the filesystem unchanged, performs the fixed
30-second cooldown after the request, and the per-key handler returns
normally so the loop continues with the remaining keys. -/
theorem C6_transport_failure_recovery (resp : String → HttpResult)
    (completed : List String) (id : String) (rest : List String)
    (startDate endDate ipAddress od st yr cp : String) (fs : FS)
    (hresp : resp id = HttpResult.exn ∨
      ∃ s b, resp id = HttpResult.ok s b ∧ raisesForStatus s = true)
    (hC : completed.contains id = false)
    (hex : fs.pathExists (dmrFilePath od st yr id) = false) :
    download_data_for_npdes (resp id) id startDate endDate ipAddress od st yr cp fs =
      (fs, [Ev.randomWait 3 10, Ev.request (build_query_url startDate endDate id ipAddress),
        Ev.cooldown 30]) ∧
    classify_response (resp id) = Outcome.TransportFailure ∧
    processLoop resp completed startDate endDate ipAddress od st yr cp (id :: rest) fs =
      ((processLoop resp completed startDate endDate ipAddress od st yr cp rest fs).1,
        [Ev.randomWait 3 10, Ev.request (build_query_url startDate endDate id ipAddress),
          Ev.cooldown 30] ++
          (processLoop resp completed startDate endDate ipAddress od st yr cp rest fs).2) := by
  have hdl : download_data_for_npdes (resp id) id startDate endDate ipAddress od st yr cp fs =
      (fs, [Ev.randomWait 3 10, Ev.request (build_query_url startDate endDate id ipAddress),
        Ev.cooldown 30]) := by
    rcases hresp with h | ⟨s, b, h, hraise⟩
    · rw [h]
      unfold download_data_for_npdes
      simp [hex]
    · rw [h]
      unfold download_data_for_npdes
      simp [hex, hraise]
  have hcl : classify_response (resp id) = Outcome.TransportFailure := by
    rcases hresp with h | ⟨s, b, h, hraise⟩
    · rw [h]
      rfl
    · rw [h]
      simp [classify_response, hraise]
  refine ⟨hdl, hcl, ?_⟩
  show (if completed.contains id then _ else _) = _
  rw [if_neg (by simpa using hC)]
  simp only [hdl]

/-- C6 witness: a concrete connection failure in a two-key loop. -/
theorem C6_transport_failure_recovery_witness :
    ((fun k => if k = "A" then HttpResult.exn else HttpResult.ok 200 "csv") "A" =
        HttpResult.exn ∨
      ∃ s b, (fun k => if k = "A" then HttpResult.exn else HttpResult.ok 200 "csv") "A" =
          HttpResult.ok s b ∧ raisesForStatus s = true) ∧
    ([] : List String).contains "A" = false ∧
    FS.pathExists FS.empty (dmrFilePath "/out" "OH" "2000" "A") = false ∧
    classify_response ((fun k => if k = "A" then HttpResult.exn else HttpResult.ok 200 "csv") "A") =
      Outcome.TransportFailure :=
  ⟨Or.inl (by decide), by decide, by decide,
    (C6_transport_failure_recovery
      (fun k => if k = "A" then HttpResult.exn else HttpResult.ok 200 "csv") [] "A" ["B"]
      "01/01/2000" "12/31/2000" "1.2.3.4" "/out" "OH" "2000" "/ck/p.txt" FS.empty
      (Or.inl (by decide)) (by decide) (by decide)).2.1⟩

/-! ## Claim C4: artifact write strictly precedes checkpoint append -/

/-- C4: on a Success response the download step equals applying the action
list [artifact write, checkpoint append] in that order, and for every prefix
of that list (every state a crash can leave behind) the invariant holds: if
the checkpoint set contains the key then the success artifact carries the
exact payload; terminating before the write leaves neither artifact nor
checkpoint entry, so the key is still pending. -/
theorem C4_write_before_checkpoint (s : Nat) (body : String)
    (npdesId startDate endDate ipAddress od st yr cp : String) (fs : FS)
    (hs : raisesForStatus s = false) (hbody : isErrorPage body = false)
    (hex : fs.pathExists (dmrFilePath od st yr npdesId) = false)
    (hck : npdesId ∉ loadCompleted fs cp)
    (hcp : cp ≠ dmrFilePath od st yr npdesId) :
    (download_data_for_npdes (HttpResult.ok s body) npdesId startDate endDate ipAddress
        od st yr cp fs).1 =
      (successActions od st yr npdesId cp body).foldl applyAction fs ∧
    successActions od st yr npdesId cp body =
      [FsAction.writeF (dmrFilePath od st yr npdesId) body,
        FsAction.appendF cp (npdesId ++ "\n")] ∧
    (∀ n, npdesId ∈ loadCompleted
        (((successActions od st yr npdesId cp body).take n).foldl applyAction fs) cp →
      (((successActions od st yr npdesId cp body).take n).foldl applyAction fs).read
        (dmrFilePath od st yr npdesId) = some body) ∧
    ((((successActions od st yr npdesId cp body).take 0).foldl applyAction fs).read
        (dmrFilePath od st yr npdesId) = none ∧
      npdesId ∉ loadCompleted
        (((successActions od st yr npdesId cp body).take 0).foldl applyAction fs) cp) := by
  have hread : fs.read (dmrFilePath od st yr npdesId) = none := by
    have := hex
    unfold FS.pathExists at this
    exact Option.not_isSome_iff_eq_none.mp (by simp [this])
  refine ⟨?_, rfl, ?_, by simpa [successActions, applyAction] using ⟨hread, hck⟩⟩
  · unfold download_data_for_npdes
    simp [hex, hs, hbody]
  · intro n
    match n with
    | 0 =>
      intro hmem
      exact absurd (by simpa [successActions] using hmem) hck
    | 1 =>
      intro hmem
      simp only [successActions, List.take, List.foldl, applyAction] at hmem
      rw [loadCompleted_write_other fs cp _ body (Ne.symm hcp)] at hmem
      exact absurd hmem hck
    | (n + 2) =>
      intro _
      have htake : (successActions od st yr npdesId cp body).take (n + 2) =
          successActions od st yr npdesId cp body := by
        simp [successActions]
      rw [htake]
      simp only [successActions, List.foldl, applyAction, FS.append]
      rw [FS.read_write_other _ _ _ _ hcp, FS.read_write_same]

/-- C4 witness: a concrete Success download from an empty filesystem. -/
theorem C4_write_before_checkpoint_witness :
    (raisesForStatus 200 = false ∧ isErrorPage "c1,c2\n1,2\n" = false ∧
      FS.pathExists FS.empty (dmrFilePath "/out" "OH" "2000" "OHX") = false ∧
      "OHX" ∉ loadCompleted FS.empty "/ck/p.txt" ∧
      "/ck/p.txt" ≠ dmrFilePath "/out" "OH" "2000" "OHX") ∧
    (download_data_for_npdes (HttpResult.ok 200 "c1,c2\n1,2\n") "OHX" "01/01/2000"
        "12/31/2000" "1.2.3.4" "/out" "OH" "2000" "/ck/p.txt" FS.empty).1 =
      (successActions "/out" "OH" "2000" "OHX" "/ck/p.txt" "c1,c2\n1,2\n").foldl
        applyAction FS.empty :=
  ⟨⟨by decide, by decide, by decide, by decide, by decide⟩,
    (C4_write_before_checkpoint 200 "c1,c2\n1,2\n" "OHX" "01/01/2000" "12/31/2000"
      "1.2.3.4" "/out" "OH" "2000" "/ck/p.txt" FS.empty (by decide) (by decide)
      (by decide) (by decide) (by decide)).1⟩

/-! ## Claim C2: the top-level scenario with an html body for 2001 -/

/-- C2 counterexample: in the spec scenario (region OH, years [2000, 2001],
empty checkpoint, year 2000 a 200 with CSV text, year 2001 a 200 whose body
contains an html tag) the top-level crawl of 1_facility_download.py performs
no classification: the html body is saved as the success artifact
2001_OH.csv and year 2001 is appended to the checkpoint, contradicting the
claimed quarantine-and-2000-only outcome. -/
theorem C2_scenario_counterexample :
    (facility_main
        (fun y => if y = 2000 then HttpResult.ok 200 "csvdata" else
          HttpResult.ok 200 "<html>no data</html>")
        "OH" "1.2.3.4" "/fd" "/ck/OH_progress.txt" [2000, 2001] FS.empty).1.read
      (facilityFilePath "/fd" "OH" 2001) = some "<html>no data</html>" ∧
    2001 ∈ facilityCompleted
      (facility_main
        (fun y => if y = 2000 then HttpResult.ok 200 "csvdata" else
          HttpResult.ok 200 "<html>no data</html>")
        "OH" "1.2.3.4" "/fd" "/ck/OH_progress.txt" [2000, 2001] FS.empty).1
      "/ck/OH_progress.txt" := by
  exact ⟨by decide, by decide⟩

/-- C2 (amended): in that scenario the code writes 2000_OH.csv with the CSV
content and 2001_OH.csv with the html content, appends both years to the
checkpoint, and writes no quarantine artifact at all — the only paths ever
written are the two success artifacts and the checkpoint file. -/
theorem C2_scenario_amended :
    (facility_main
        (fun y => if y = 2000 then HttpResult.ok 200 "csvdata" else
          HttpResult.ok 200 "<html>no data</html>")
        "OH" "1.2.3.4" "/fd" "/ck/OH_progress.txt" [2000, 2001] FS.empty).1.read
      (facilityFilePath "/fd" "OH" 2000) = some "csvdata" ∧
    (facility_main
        (fun y => if y = 2000 then HttpResult.ok 200 "csvdata" else
          HttpResult.ok 200 "<html>no data</html>")
        "OH" "1.2.3.4" "/fd" "/ck/OH_progress.txt" [2000, 2001] FS.empty).1.read
      (facilityFilePath "/fd" "OH" 2001) = some "<html>no data</html>" ∧
    facilityCompleted
      (facility_main
        (fun y => if y = 2000 then HttpResult.ok 200 "csvdata" else
          HttpResult.ok 200 "<html>no data</html>")
        "OH" "1.2.3.4" "/fd" "/ck/OH_progress.txt" [2000, 2001] FS.empty).1
      "/ck/OH_progress.txt" = [2000, 2001] ∧
    (facility_main
        (fun y => if y = 2000 then HttpResult.ok 200 "csvdata" else
          HttpResult.ok 200 "<html>no data</html>")
        "OH" "1.2.3.4" "/fd" "/ck/OH_progress.txt" [2000, 2001] FS.empty).1.files.map
      Prod.fst =
      ["/ck/OH_progress.txt", facilityFilePath "/fd" "OH" 2001, "/ck/OH_progress.txt",
        facilityFilePath "/fd" "OH" 2000] := by
  exact ⟨by decide, by decide, by decide, by decide⟩

/-! ## Claim C7: key visiting order -/

/-- Is the number list strictly ascending? -/
def ascendingNat : List Nat → Bool
  | [] => true
  | [_] => true
  | a :: b :: rest => decide (a < b) && ascendingNat (b :: rest)

/-- C7 counterexample: the per-entity downloader traverses the os.listdir
result as given; a directory listing that yields 2001 before 2000 makes main
process the listing files out of ascending year order. -/
theorem C7_listdir_order_counterexample :
    dmr_visit_years "OH" ["2001_OH.csv", "2000_OH.csv"] = ["2001", "2000"] ∧
    ascendingNat ((dmr_visit_years "OH" ["2001_OH.csv", "2000_OH.csv"]).map strToNat) =
      false := by
  exact ⟨by decide, by decide⟩

/-- C7 (amended): the top-level crawl attempts years in strictly ascending
order over the fixed range 2000-2025, and the per-entity visit order is a
deterministic function of the directory listing — identical listings give
identical visiting sequences — but it follows the listing order, which is not
guaranteed to be ascending by year. -/
theorem C7_visit_order_amended :
    ascendingNat facilityYears = true ∧
    facilityYears.head? = some 2000 ∧
    facilityYears.getLast? = some 2025 ∧
    (∀ st l1 l2, l1 = l2 → dmr_visit_years st l1 = dmr_visit_years st l2) := by
  refine ⟨by decide, by decide, by decide, ?_⟩
  intro st l1 l2 h
  rw [h]

/-- C7 witness: the deterministic-order component at a concrete listing. -/
theorem C7_visit_order_amended_witness :
    (["2000_OH.csv", "1999_OH.csv"] = ["2000_OH.csv", "1999_OH.csv"]) ∧
    dmr_visit_years "OH" ["2000_OH.csv", "1999_OH.csv"] =
      dmr_visit_years "OH" ["2000_OH.csv", "1999_OH.csv"] :=
  ⟨rfl, (C7_visit_order_amended).2.2.2 "OH" _ _ rfl⟩

/-! ## Branch equations for download_data_for_npdes -/

theorem dl_skip (r : HttpResult) (id startDate endDate ipAddress od st yr cp : String)
    (fs : FS) (hex : fs.pathExists (dmrFilePath od st yr id) = true) :
    download_data_for_npdes r id startDate endDate ipAddress od st yr cp fs = (fs, []) := by
  unfold download_data_for_npdes
  simp [hex]

theorem dl_exn (id startDate endDate ipAddress od st yr cp : String) (fs : FS)
    (hex : fs.pathExists (dmrFilePath od st yr id) = false) :
    download_data_for_npdes HttpResult.exn id startDate endDate ipAddress od st yr cp fs =
      (fs, [Ev.randomWait 3 10, Ev.request (build_query_url startDate endDate id ipAddress),
        Ev.cooldown 30]) := by
  unfold download_data_for_npdes
  simp [hex]

theorem dl_raise (s : Nat) (body : String)
    (id startDate endDate ipAddress od st yr cp : String) (fs : FS)
    (hex : fs.pathExists (dmrFilePath od st yr id) = false)
    (hraise : raisesForStatus s = true) :
    download_data_for_npdes (HttpResult.ok s body) id startDate endDate ipAddress od st yr
        cp fs =
      (fs, [Ev.randomWait 3 10, Ev.request (build_query_url startDate endDate id ipAddress),
        Ev.cooldown 30]) := by
  unfold download_data_for_npdes
  simp [hex, hraise]

theorem dl_nodata (s : Nat) (body : String)
    (id startDate endDate ipAddress od st yr cp : String) (fs : FS)
    (hex : fs.pathExists (dmrFilePath od st yr id) = false)
    (hraise : raisesForStatus s = false) (herr : isErrorPage body = true) :
    download_data_for_npdes (HttpResult.ok s body) id startDate endDate ipAddress od st yr
        cp fs =
      (fs.write (dmrErrorPath od st yr id) body,
        [Ev.randomWait 3 10, Ev.request (build_query_url startDate endDate id ipAddress)]) := by
  unfold download_data_for_npdes
  simp [hex, hraise, herr]

theorem dl_success (s : Nat) (body : String)
    (id startDate endDate ipAddress od st yr cp : String) (fs : FS)
    (hex : fs.pathExists (dmrFilePath od st yr id) = false)
    (hraise : raisesForStatus s = false) (herr : isErrorPage body = false) :
    download_data_for_npdes (HttpResult.ok s body) id startDate endDate ipAddress od st yr
        cp fs =
      ((fs.write (dmrFilePath od st yr id) body).append cp (id ++ "\n"),
        [Ev.randomWait 3 10, Ev.request (build_query_url startDate endDate id ipAddress),
          Ev.randomWait 10 30]) := by
  unfold download_data_for_npdes
  simp [hex, hraise, herr, successActions, applyAction]

/-! ## Frame lemmas: untouched paths keep their content -/


theorem processLoop_cons (resp : String → HttpResult) (C : List String)
    (startDate endDate ipAddress od st yr cp id : String) (rest : List String) (fs : FS) :
    processLoop resp C startDate endDate ipAddress od st yr cp (id :: rest) fs =
      if C.contains id then
        processLoop resp C startDate endDate ipAddress od st yr cp rest fs
      else
        ((processLoop resp C startDate endDate ipAddress od st yr cp rest
            (download_data_for_npdes (resp id) id startDate endDate ipAddress od st yr cp
              fs).1).1,
          (download_data_for_npdes (resp id) id startDate endDate ipAddress od st yr cp
              fs).2 ++
            (processLoop resp C startDate endDate ipAddress od st yr cp rest
              (download_data_for_npdes (resp id) id startDate endDate ipAddress od st yr cp
                fs).1).2) := rfl

theorem download_frame (r : HttpResult)
    (id startDate endDate ipAddress od st yr cp : String) (fs : FS) (p : String)
    (h1 : p ≠ dmrFilePath od st yr id) (h2 : p ≠ dmrErrorPath od st yr id) (h3 : p ≠ cp) :
    ((download_data_for_npdes r id startDate endDate ipAddress od st yr cp fs).1).read p =
      fs.read p := by
  by_cases hex : fs.pathExists (dmrFilePath od st yr id) = true
  · rw [dl_skip r id startDate endDate ipAddress od st yr cp fs hex]
  · rw [Bool.not_eq_true] at hex
    cases r with
    | exn => rw [dl_exn id startDate endDate ipAddress od st yr cp fs hex]
    | ok s body =>
      by_cases hraise : raisesForStatus s = true
      · rw [dl_raise s body id startDate endDate ipAddress od st yr cp fs hex hraise]
      · rw [Bool.not_eq_true] at hraise
        by_cases herr : isErrorPage body = true
        · rw [dl_nodata s body id startDate endDate ipAddress od st yr cp fs hex hraise herr]
          exact FS.read_write_other _ _ _ _ (Ne.symm h2)
        · rw [Bool.not_eq_true] at herr
          rw [dl_success s body id startDate endDate ipAddress od st yr cp fs hex hraise herr]
          show ((fs.write (dmrFilePath od st yr id) body).write cp _).read p = fs.read p
          rw [FS.read_write_other _ _ _ _ (Ne.symm h3),
            FS.read_write_other _ _ _ _ (Ne.symm h1)]

theorem processLoop_frame (resp : String → HttpResult)
    (C : List String) (startDate endDate ipAddress od st yr cp : String)
    (ids : List String) (fs : FS) (p : String)
    (hp : ∀ id ∈ ids, p ≠ dmrFilePath od st yr id ∧ p ≠ dmrErrorPath od st yr id)
    (hpc : p ≠ cp) :
    ((processLoop resp C startDate endDate ipAddress od st yr cp ids fs).1).read p =
      fs.read p := by
  induction ids generalizing fs with
  | nil => rfl
  | cons id rest ih =>
    have hhead := hp id (List.mem_cons_self id rest)
    have hrest : ∀ i ∈ rest, p ≠ dmrFilePath od st yr i ∧ p ≠ dmrErrorPath od st yr i :=
      fun i hi => hp i (List.mem_cons_of_mem id hi)
    rw [processLoop_cons]
    by_cases hC : C.contains id = true
    · rw [if_pos hC]
      exact ih fs hrest
    · rw [if_neg hC]
      show ((processLoop resp C startDate endDate ipAddress od st yr cp rest
        (download_data_for_npdes (resp id) id startDate endDate ipAddress od st yr cp
          fs).1).1).read p = fs.read p
      rw [ih _ hrest]
      exact download_frame (resp id) id startDate endDate ipAddress od st yr cp fs p
        hhead.1 hhead.2 hpc

/-! ## Checkpoint wellformedness and monotonicity through the loop -/

theorem download_ckWF (r : HttpResult)
    (id startDate endDate ipAddress od st yr cp : String) (fs : FS)
    (h1 : cp ≠ dmrFilePath od st yr id) (h2 : cp ≠ dmrErrorPath od st yr id)
    (hwf : ckWF fs cp) :
    ckWF ((download_data_for_npdes r id startDate endDate ipAddress od st yr cp fs).1) cp := by
  by_cases hex : fs.pathExists (dmrFilePath od st yr id) = true
  · rw [dl_skip r id startDate endDate ipAddress od st yr cp fs hex]
    exact hwf
  · rw [Bool.not_eq_true] at hex
    cases r with
    | exn =>
      rw [dl_exn id startDate endDate ipAddress od st yr cp fs hex]
      exact hwf
    | ok s body =>
      by_cases hraise : raisesForStatus s = true
      · rw [dl_raise s body id startDate endDate ipAddress od st yr cp fs hex hraise]
        exact hwf
      · rw [Bool.not_eq_true] at hraise
        by_cases herr : isErrorPage body = true
        · rw [dl_nodata s body id startDate endDate ipAddress od st yr cp fs hex hraise herr]
          exact ckWF_write_other fs cp _ body (Ne.symm h2) hwf
        · rw [Bool.not_eq_true] at herr
          rw [dl_success s body id startDate endDate ipAddress od st yr cp fs hex hraise herr]
          exact ckWF_append _ cp id

theorem processLoop_ckWF (resp : String → HttpResult)
    (C : List String) (startDate endDate ipAddress od st yr cp : String)
    (ids : List String) (fs : FS)
    (hcp : ∀ id ∈ ids, cp ≠ dmrFilePath od st yr id ∧ cp ≠ dmrErrorPath od st yr id)
    (hwf : ckWF fs cp) :
    ckWF ((processLoop resp C startDate endDate ipAddress od st yr cp ids fs).1) cp := by
  induction ids generalizing fs with
  | nil => exact hwf
  | cons id rest ih =>
    have hhead := hcp id (List.mem_cons_self id rest)
    have hrest : ∀ i ∈ rest, cp ≠ dmrFilePath od st yr i ∧ cp ≠ dmrErrorPath od st yr i :=
      fun i hi => hcp i (List.mem_cons_of_mem id hi)
    rw [processLoop_cons]
    by_cases hC : C.contains id = true
    · rw [if_pos hC]
      exact ih fs hrest hwf
    · rw [if_neg hC]
      exact ih _ hrest
        (download_ckWF (resp id) id startDate endDate ipAddress od st yr cp fs
          hhead.1 hhead.2 hwf)

theorem download_load_mono (r : HttpResult)
    (id startDate endDate ipAddress od st yr cp : String) (fs : FS)
    (h1 : cp ≠ dmrFilePath od st yr id) (h2 : cp ≠ dmrErrorPath od st yr id)
    (hnl : '\n' ∉ id.data) (hwf : ckWF fs cp) (x : String)
    (hx : x ∈ loadCompleted fs cp) :
    x ∈ loadCompleted ((download_data_for_npdes r id startDate endDate ipAddress od st yr
      cp fs).1) cp := by
  by_cases hex : fs.pathExists (dmrFilePath od st yr id) = true
  · rw [dl_skip r id startDate endDate ipAddress od st yr cp fs hex]
    exact hx
  · rw [Bool.not_eq_true] at hex
    cases r with
    | exn =>
      rw [dl_exn id startDate endDate ipAddress od st yr cp fs hex]
      exact hx
    | ok s body =>
      by_cases hraise : raisesForStatus s = true
      · rw [dl_raise s body id startDate endDate ipAddress od st yr cp fs hex hraise]
        exact hx
      · rw [Bool.not_eq_true] at hraise
        by_cases herr : isErrorPage body = true
        · rw [dl_nodata s body id startDate endDate ipAddress od st yr cp fs hex hraise herr]
          rw [loadCompleted_write_other fs cp _ body (Ne.symm h2)]
          exact hx
        · rw [Bool.not_eq_true] at herr
          rw [dl_success s body id startDate endDate ipAddress od st yr cp fs hex hraise herr]
          rw [loadCompleted_after_append _ cp id hnl
            (ckWF_write_other fs cp _ body (Ne.symm h1) hwf)]
          rw [loadCompleted_write_other fs cp _ body (Ne.symm h1)]
          exact List.mem_append_left _ hx

theorem processLoop_load_mono (resp : String → HttpResult)
    (C : List String) (startDate endDate ipAddress od st yr cp : String)
    (ids : List String) (fs : FS)
    (hcp : ∀ id ∈ ids, cp ≠ dmrFilePath od st yr id ∧ cp ≠ dmrErrorPath od st yr id)
    (hnl : ∀ id ∈ ids, '\n' ∉ id.data) (hwf : ckWF fs cp) (x : String)
    (hx : x ∈ loadCompleted fs cp) :
    x ∈ loadCompleted ((processLoop resp C startDate endDate ipAddress od st yr cp ids
      fs).1) cp := by
  induction ids generalizing fs with
  | nil => exact hx
  | cons id rest ih =>
    have hhead := hcp id (List.mem_cons_self id rest)
    have hrest : ∀ i ∈ rest, cp ≠ dmrFilePath od st yr i ∧ cp ≠ dmrErrorPath od st yr i :=
      fun i hi => hcp i (List.mem_cons_of_mem id hi)
    have hnlrest : ∀ i ∈ rest, '\n' ∉ i.data :=
      fun i hi => hnl i (List.mem_cons_of_mem id hi)
    rw [processLoop_cons]
    by_cases hC : C.contains id = true
    · rw [if_pos hC]
      exact ih fs hrest hnlrest hwf hx
    · rw [if_neg hC]
      exact ih _ hrest hnlrest
        (download_ckWF (resp id) id startDate endDate ipAddress od st yr cp fs
          hhead.1 hhead.2 hwf)
        (download_load_mono (resp id) id startDate endDate ipAddress od st yr cp fs
          hhead.1 hhead.2 (hnl id (List.mem_cons_self id rest)) hwf x hx)

theorem processLoop_cons_skip (resp : String → HttpResult) (C : List String)
    (startDate endDate ipAddress od st yr cp id : String) (rest : List String) (fs : FS)
    (hC : C.contains id = true) :
    processLoop resp C startDate endDate ipAddress od st yr cp (id :: rest) fs =
      processLoop resp C startDate endDate ipAddress od st yr cp rest fs := by
  rw [processLoop_cons, if_pos hC]

theorem processLoop_cons_go (resp : String → HttpResult) (C : List String)
    (startDate endDate ipAddress od st yr cp id : String) (rest : List String) (fs : FS)
    (hC : C.contains id = false) :
    processLoop resp C startDate endDate ipAddress od st yr cp (id :: rest) fs =
      ((processLoop resp C startDate endDate ipAddress od st yr cp rest
          (download_data_for_npdes (resp id) id startDate endDate ipAddress od st yr cp
            fs).1).1,
        (download_data_for_npdes (resp id) id startDate endDate ipAddress od st yr cp
            fs).2 ++
          (processLoop resp C startDate endDate ipAddress od st yr cp rest
            (download_data_for_npdes (resp id) id startDate endDate ipAddress od st yr cp
              fs).1).2) := by
  rw [processLoop_cons, if_neg (by simpa using hC)]

theorem countRequests_append (a b : List Ev) :
    countRequests (a ++ b) = countRequests a + countRequests b := by
  simp [countRequests, List.filter_append]

theorem read_eq_none_of_pathExists_false (fs : FS) (p : String)
    (h : fs.pathExists p = false) : fs.read p = none := by
  unfold FS.pathExists at h
  exact Option.not_isSome_iff_eq_none.mp (by simp [h])

theorem pathExists_eq_of_read_eq (fs g : FS) (p : String) (h : fs.read p = g.read p) :
    fs.pathExists p = g.pathExists p := by
  unfold FS.pathExists
  rw [h]

theorem filter_cons_false {α : Type} (p : α → Bool) (a : α) (l : List α)
    (h : p a = false) : List.filter p (a :: l) = List.filter p l := by
  simp [List.filter_cons, h]

theorem filter_cons_true {α : Type} (p : α → Bool) (a : α) (l : List α)
    (h : p a = true) : List.filter p (a :: l) = a :: List.filter p l := by
  simp [List.filter_cons, h]

/-- Synchronized two-run induction: running the per-id loop a second time,
with a completed set C2 at least as large as the first run left behind (on
the relevant ids) and a start state reading like the first run final state,
changes no file read, performs requests exactly for the unskipped ids, and
every unskipped id has a non-Success classification. -/
theorem processLoop_idempotent (resp : String → HttpResult)
    (startDate endDate ipAddress od st yr cp : String) (C1 C2 : List String) :
    ∀ (ids : List String) (fs g : FS),
    ids.Nodup →
    (∀ i ∈ ids, cp ≠ dmrFilePath od st yr i ∧ cp ≠ dmrErrorPath od st yr i) →
    (∀ i ∈ ids, C1.contains i = true → C2.contains i = true) →
    (∀ p, g.read p =
      ((processLoop resp C1 startDate endDate ipAddress od st yr cp ids fs).1).read p) →
    (∀ p, ((processLoop resp C2 startDate endDate ipAddress od st yr cp ids g).1).read p =
      ((processLoop resp C1 startDate endDate ipAddress od st yr cp ids fs).1).read p) ∧
    countRequests ((processLoop resp C2 startDate endDate ipAddress od st yr cp ids g).2) =
      (List.filter (fun i => !(C2.contains i) &&
        !(((processLoop resp C1 startDate endDate ipAddress od st yr cp ids
          fs).1).pathExists (dmrFilePath od st yr i))) ids).length ∧
    (∀ i ∈ ids, C2.contains i = false →
      ((processLoop resp C1 startDate endDate ipAddress od st yr cp ids fs).1).pathExists
        (dmrFilePath od st yr i) = false →
      ∀ b, classify_response (resp i) ≠ Outcome.Success b) := by
  intro ids
  induction ids with
  | nil =>
    intro fs g _ _ _ hg
    refine ⟨fun p => hg p ▸ rfl, by simp [countRequests, processLoop], ?_⟩
    intro i hi
    exact absurd hi (List.not_mem_nil i)
  | cons id rest ih =>
    intro fs g hnodup hcp hmono hg
    obtain ⟨hnotin, hnodup2⟩ := List.nodup_cons.mp hnodup
    have hcphead := hcp id (List.mem_cons_self id rest)
    have hcprest : ∀ i ∈ rest, cp ≠ dmrFilePath od st yr i ∧ cp ≠ dmrErrorPath od st yr i :=
      fun i hi => hcp i (List.mem_cons_of_mem id hi)
    have hmonorest : ∀ i ∈ rest, C1.contains i = true → C2.contains i = true :=
      fun i hi => hmono i (List.mem_cons_of_mem id hi)
    have hfpframe : ∀ i ∈ rest, dmrFilePath od st yr id ≠ dmrFilePath od st yr i ∧
        dmrFilePath od st yr id ≠ dmrErrorPath od st yr i := by
      intro i hi
      refine ⟨fun h => hnotin ?_, dmrFilePath_ne_errorPath od st yr id od st yr i⟩
      rw [dmrFilePath_inj od st yr id i h]
      exact hi
    have hepframe : ∀ i ∈ rest, dmrErrorPath od st yr id ≠ dmrFilePath od st yr i ∧
        dmrErrorPath od st yr id ≠ dmrErrorPath od st yr i := by
      intro i hi
      refine ⟨Ne.symm (dmrFilePath_ne_errorPath od st yr i od st yr id), fun h => hnotin ?_⟩
      rw [dmrErrorPath_inj od st yr id i h]
      exact hi
    by_cases hC1 : C1.contains id = true
    · -- run 1 skipped the head via the checkpoint, so does run 2
      have hC2 : C2.contains id = true := hmono id (List.mem_cons_self id rest) hC1
      rw [processLoop_cons_skip resp C1 startDate endDate ipAddress od st yr cp id rest fs
        hC1] at hg ⊢
      rw [processLoop_cons_skip resp C2 startDate endDate ipAddress od st yr cp id rest g
        hC2]
      obtain ⟨ihA, ihB, ihC⟩ := ih fs g hnodup2 hcprest hmonorest hg
      refine ⟨ihA, ?_, ?_⟩
      · rw [ihB, filter_cons_false _ _ _ (by simp only [hC2, Bool.not_true, Bool.false_and])]
      · intro i hi hic hip
        rcases List.mem_cons.mp hi with rfl | hi2
        · rw [hC2] at hic
          cases hic
        · exact ihC i hi2 hic hip
    · have hC1f : C1.contains id = false := by
        simpa using hC1
      rw [processLoop_cons_go resp C1 startDate endDate ipAddress od st yr cp id rest fs
        hC1f] at hg ⊢
      by_cases hex : fs.pathExists (dmrFilePath od st yr id) = true
      · -- run 1 skipped the head because the artifact already existed
        have hdl : download_data_for_npdes (resp id) id startDate endDate ipAddress od st
            yr cp fs = (fs, []) :=
          dl_skip (resp id) id startDate endDate ipAddress od st yr cp fs hex
        rw [hdl] at hg ⊢
        have hfs1fp : ((processLoop resp C1 startDate endDate ipAddress od st yr cp rest
            fs).1).read (dmrFilePath od st yr id) = fs.read (dmrFilePath od st yr id) :=
          processLoop_frame resp C1 startDate endDate ipAddress od st yr cp rest fs _
            hfpframe (Ne.symm hcphead.1)
        have hfs1ex : ((processLoop resp C1 startDate endDate ipAddress od st yr cp rest
            fs).1).pathExists (dmrFilePath od st yr id) = true := by
          unfold FS.pathExists at hex ⊢
          rw [hfs1fp]
          exact hex
        obtain ⟨ihA, ihB, ihC⟩ := ih fs g hnodup2 hcprest hmonorest hg
        have hgex : g.pathExists (dmrFilePath od st yr id) = true := by
          unfold FS.pathExists
          rw [hg]
          exact hfs1ex
        by_cases hC2 : C2.contains id = true
        · rw [processLoop_cons_skip resp C2 startDate endDate ipAddress od st yr cp id rest
            g hC2]
          refine ⟨ihA, ?_, ?_⟩
          · rw [ihB, filter_cons_false _ _ _ (by simp only [hC2, Bool.not_true, Bool.false_and])]
          · intro i hi hic hip
            rcases List.mem_cons.mp hi with rfl | hi2
            · rw [hC2] at hic
              cases hic
            · exact ihC i hi2 hic hip
        · have hC2f : C2.contains id = false := by
            simpa using hC2
          rw [processLoop_cons_go resp C2 startDate endDate ipAddress od st yr cp id rest g
            hC2f, dl_skip (resp id) id startDate endDate ipAddress od st yr cp g hgex]
          refine ⟨ihA, ?_, ?_⟩
          · rw [List.nil_append, ihB,
              filter_cons_false _ _ _ (by simp only [hfs1ex, Bool.not_true, Bool.and_false])]
          · intro i hi hic hip
            rcases List.mem_cons.mp hi with rfl | hi2
            · rw [hfs1ex] at hip
              cases hip
            · exact ihC i hi2 hic hip
      · -- run 1 attempted the head
        have hexf : fs.pathExists (dmrFilePath od st yr id) = false := by
          simpa using hex
        have hfsread : fs.read (dmrFilePath od st yr id) = none :=
          read_eq_none_of_pathExists_false fs _ hexf
        cases hr : resp id with
        | exn =>
          have hdlC : download_data_for_npdes HttpResult.exn id startDate endDate
              ipAddress od st yr cp fs = (fs, [Ev.randomWait 3 10,
                Ev.request (build_query_url startDate endDate id ipAddress),
                Ev.cooldown 30]) :=
            dl_exn id startDate endDate ipAddress od st yr cp fs hexf
          have hdl : download_data_for_npdes (resp id) id startDate endDate ipAddress od st
              yr cp fs = (fs, [Ev.randomWait 3 10,
                Ev.request (build_query_url startDate endDate id ipAddress),
                Ev.cooldown 30]) := by
            rw [hr]
            exact hdlC
          rw [hdl] at hg
          rw [hdlC]
          have hfs1fp : ((processLoop resp C1 startDate endDate ipAddress od st yr cp rest
              fs).1).read (dmrFilePath od st yr id) = none := by
            rw [processLoop_frame resp C1 startDate endDate ipAddress od st yr cp rest fs _
              hfpframe (Ne.symm hcphead.1)]
            exact hfsread
          have hfs1ex : ((processLoop resp C1 startDate endDate ipAddress od st yr cp rest
              fs).1).pathExists (dmrFilePath od st yr id) = false := by
            unfold FS.pathExists
            rw [hfs1fp]
            rfl
          have hclass : ∀ b, classify_response (resp id) ≠ Outcome.Success b := by
            intro b
            rw [hr]
            simp [classify_response]
          obtain ⟨ihA, ihB, ihC⟩ := ih fs g hnodup2 hcprest hmonorest hg
          by_cases hC2 : C2.contains id = true
          · rw [processLoop_cons_skip resp C2 startDate endDate ipAddress od st yr cp id
              rest g hC2]
            refine ⟨ihA, ?_, ?_⟩
            · rw [ihB, filter_cons_false _ _ _ (by simp only [hC2, Bool.not_true, Bool.false_and])]
            · intro i hi hic hip
              rcases List.mem_cons.mp hi with rfl | hi2
              · rw [hC2] at hic
                cases hic
              · exact ihC i hi2 hic hip
          · have hC2f : C2.contains id = false := by
              simpa using hC2
            have hgex : g.pathExists (dmrFilePath od st yr id) = false := by
              unfold FS.pathExists
              rw [hg]
              rw [hfs1fp]
              rfl
            have hdl2 : download_data_for_npdes (resp id) id startDate endDate ipAddress od
                st yr cp g = (g, [Ev.randomWait 3 10,
                  Ev.request (build_query_url startDate endDate id ipAddress),
                  Ev.cooldown 30]) := by
              rw [hr]
              exact dl_exn id startDate endDate ipAddress od st yr cp g hgex
            rw [processLoop_cons_go resp C2 startDate endDate ipAddress od st yr cp id rest
              g hC2f, hdl2]
            refine ⟨ihA, ?_, ?_⟩
            · rw [countRequests_append, ihB,
                filter_cons_true _ _ _ (by simp only [hC2f, hfs1ex, Bool.not_false, Bool.and_self])]
              simp [countRequests]
              omega
            · intro i hi hic hip
              rcases List.mem_cons.mp hi with rfl | hi2
              · exact hclass
              · exact ihC i hi2 hic hip
        | ok s body =>
          by_cases hraise : raisesForStatus s = true
          · -- HTTPError from raise_for_status: same shape as a raised exception
            have hdlC : download_data_for_npdes (HttpResult.ok s body) id startDate
                endDate ipAddress od st yr cp fs = (fs, [Ev.randomWait 3 10,
                  Ev.request (build_query_url startDate endDate id ipAddress),
                  Ev.cooldown 30]) :=
              dl_raise s body id startDate endDate ipAddress od st yr cp fs hexf hraise
            have hdl : download_data_for_npdes (resp id) id startDate endDate ipAddress od
                st yr cp fs = (fs, [Ev.randomWait 3 10,
                  Ev.request (build_query_url startDate endDate id ipAddress),
                  Ev.cooldown 30]) := by
              rw [hr]
              exact hdlC
            rw [hdl] at hg
            rw [hdlC]
            have hfs1fp : ((processLoop resp C1 startDate endDate ipAddress od st yr cp
                rest fs).1).read (dmrFilePath od st yr id) = none := by
              rw [processLoop_frame resp C1 startDate endDate ipAddress od st yr cp rest fs
                _ hfpframe (Ne.symm hcphead.1)]
              exact hfsread
            have hfs1ex : ((processLoop resp C1 startDate endDate ipAddress od st yr cp
                rest fs).1).pathExists (dmrFilePath od st yr id) = false := by
              unfold FS.pathExists
              rw [hfs1fp]
              rfl
            have hclass : ∀ b, classify_response (resp id) ≠ Outcome.Success b := by
              intro b
              rw [hr]
              simp [classify_response, hraise]
            obtain ⟨ihA, ihB, ihC⟩ := ih fs g hnodup2 hcprest hmonorest hg
            by_cases hC2 : C2.contains id = true
            · rw [processLoop_cons_skip resp C2 startDate endDate ipAddress od st yr cp id
                rest g hC2]
              refine ⟨ihA, ?_, ?_⟩
              · rw [ihB, filter_cons_false _ _ _ (by simp only [hC2, Bool.not_true, Bool.false_and])]
              · intro i hi hic hip
                rcases List.mem_cons.mp hi with rfl | hi2
                · rw [hC2] at hic
                  cases hic
                · exact ihC i hi2 hic hip
            · have hC2f : C2.contains id = false := by
                simpa using hC2
              have hgex : g.pathExists (dmrFilePath od st yr id) = false := by
                unfold FS.pathExists
                rw [hg, hfs1fp]
                rfl
              have hdl2 : download_data_for_npdes (resp id) id startDate endDate ipAddress
                  od st yr cp g = (g, [Ev.randomWait 3 10,
                    Ev.request (build_query_url startDate endDate id ipAddress),
                    Ev.cooldown 30]) := by
                rw [hr]
                exact dl_raise s body id startDate endDate ipAddress od st yr cp g hgex
                  hraise
              rw [processLoop_cons_go resp C2 startDate endDate ipAddress od st yr cp id
                rest g hC2f, hdl2]
              refine ⟨ihA, ?_, ?_⟩
              · rw [countRequests_append, ihB,
                  filter_cons_true _ _ _ (by simp only [hC2f, hfs1ex, Bool.not_false, Bool.and_self])]
                simp [countRequests]
                omega
              · intro i hi hic hip
                rcases List.mem_cons.mp hi with rfl | hi2
                · exact hclass
                · exact ihC i hi2 hic hip
          · have hraisef : raisesForStatus s = false := by
              simpa using hraise
            by_cases herr : isErrorPage body = true
            · -- NoDataAvailable: quarantine write, no checkpoint append
              have hdlC : download_data_for_npdes (HttpResult.ok s body) id startDate
                  endDate ipAddress od st yr cp fs =
                    (fs.write (dmrErrorPath od st yr id) body,
                    [Ev.randomWait 3 10,
                      Ev.request (build_query_url startDate endDate id ipAddress)]) :=
                dl_nodata s body id startDate endDate ipAddress od st yr cp fs hexf
                  hraisef herr
              have hdl : download_data_for_npdes (resp id) id startDate endDate ipAddress
                  od st yr cp fs = (fs.write (dmrErrorPath od st yr id) body,
                    [Ev.randomWait 3 10,
                      Ev.request (build_query_url startDate endDate id ipAddress)]) := by
                rw [hr]
                exact hdlC
              rw [hdl] at hg
              rw [hdlC]
              have hclass : ∀ b, classify_response (resp id) ≠ Outcome.Success b := by
                intro b
                rw [hr]
                simp [classify_response, hraisef, herr]
              have hfs1ep : ((processLoop resp C1 startDate endDate ipAddress od st yr cp
                  rest (fs.write (dmrErrorPath od st yr id) body)).1).read
                    (dmrErrorPath od st yr id) = some body := by
                rw [processLoop_frame resp C1 startDate endDate ipAddress od st yr cp rest
                  _ _ hepframe (Ne.symm hcphead.2)]
                exact FS.read_write_same fs _ body
              have hfs1fp : ((processLoop resp C1 startDate endDate ipAddress od st yr cp
                  rest (fs.write (dmrErrorPath od st yr id) body)).1).read
                    (dmrFilePath od st yr id) = none := by
                rw [processLoop_frame resp C1 startDate endDate ipAddress od st yr cp rest
                  _ _ hfpframe (Ne.symm hcphead.1)]
                rw [FS.read_write_other _ _ _ _
                  (Ne.symm (dmrFilePath_ne_errorPath od st yr id od st yr id))]
                exact hfsread
              have hfs1ex : ((processLoop resp C1 startDate endDate ipAddress od st yr cp
                  rest (fs.write (dmrErrorPath od st yr id) body)).1).pathExists
                    (dmrFilePath od st yr id) = false := by
                unfold FS.pathExists
                rw [hfs1fp]
                rfl
              by_cases hC2 : C2.contains id = true
              · rw [processLoop_cons_skip resp C2 startDate endDate ipAddress od st yr cp
                  id rest g hC2]
                obtain ⟨ihA, ihB, ihC⟩ := ih _ g hnodup2 hcprest hmonorest hg
                refine ⟨ihA, ?_, ?_⟩
                · rw [ihB, filter_cons_false _ _ _ (by simp only [hC2, Bool.not_true, Bool.false_and])]
                · intro i hi hic hip
                  rcases List.mem_cons.mp hi with rfl | hi2
                  · rw [hC2] at hic
                    cases hic
                  · exact ihC i hi2 hic hip
              · have hC2f : C2.contains id = false := by
                  simpa using hC2
                have hgex : g.pathExists (dmrFilePath od st yr id) = false := by
                  unfold FS.pathExists
                  rw [hg, hfs1fp]
                  rfl
                have hdl2 : download_data_for_npdes (resp id) id startDate endDate
                    ipAddress od st yr cp g = (g.write (dmrErrorPath od st yr id) body,
                      [Ev.randomWait 3 10,
                        Ev.request (build_query_url startDate endDate id ipAddress)]) := by
                  rw [hr]
                  exact dl_nodata s body id startDate endDate ipAddress od st yr cp g hgex
                    hraisef herr
                rw [processLoop_cons_go resp C2 startDate endDate ipAddress od st yr cp id
                  rest g hC2f, hdl2]
                have hgep : g.read (dmrErrorPath od st yr id) = some body := by
                  rw [hg]
                  exact hfs1ep
                have hg2 : ∀ p, (g.write (dmrErrorPath od st yr id) body).read p =
                    ((processLoop resp C1 startDate endDate ipAddress od st yr cp rest
                      (fs.write (dmrErrorPath od st yr id) body)).1).read p := by
                  intro p
                  rw [FS.read_write_self g _ body hgep p]
                  exact hg p
                obtain ⟨ihA, ihB, ihC⟩ := ih _ _ hnodup2 hcprest hmonorest hg2
                refine ⟨ihA, ?_, ?_⟩
                · rw [countRequests_append, ihB,
                    filter_cons_true _ _ _ (by simp only [hC2f, hfs1ex, Bool.not_false, Bool.and_self])]
                  simp [countRequests]
                  omega
                · intro i hi hic hip
                  rcases List.mem_cons.mp hi with rfl | hi2
                  · exact hclass
                  · exact ihC i hi2 hic hip
            · -- Success: artifact written and checkpointed on run 1
              have herrf : isErrorPage body = false := by
                simpa using herr
              have hdlC : download_data_for_npdes (HttpResult.ok s body) id startDate
                  endDate ipAddress od st yr cp fs =
                    ((fs.write (dmrFilePath od st yr id) body).append cp
                    (id ++ "\n"), [Ev.randomWait 3 10,
                      Ev.request (build_query_url startDate endDate id ipAddress),
                      Ev.randomWait 10 30]) :=
                dl_success s body id startDate endDate ipAddress od st yr cp fs hexf
                  hraisef herrf
              have hdl : download_data_for_npdes (resp id) id startDate endDate ipAddress
                  od st yr cp fs = ((fs.write (dmrFilePath od st yr id) body).append cp
                    (id ++ "\n"), [Ev.randomWait 3 10,
                      Ev.request (build_query_url startDate endDate id ipAddress),
                      Ev.randomWait 10 30]) := by
                rw [hr]
                exact hdlC
              rw [hdl] at hg
              rw [hdlC]
              have hfsAfp : ((fs.write (dmrFilePath od st yr id) body).append cp
                  (id ++ "\n")).read (dmrFilePath od st yr id) = some body := by
                unfold FS.append
                rw [FS.read_write_other _ _ _ _ hcphead.1]
                exact FS.read_write_same fs _ body
              have hfs1fp : ((processLoop resp C1 startDate endDate ipAddress od st yr cp
                  rest ((fs.write (dmrFilePath od st yr id) body).append cp
                    (id ++ "\n"))).1).read (dmrFilePath od st yr id) = some body := by
                rw [processLoop_frame resp C1 startDate endDate ipAddress od st yr cp rest
                  _ _ hfpframe (Ne.symm hcphead.1)]
                exact hfsAfp
              have hfs1ex : ((processLoop resp C1 startDate endDate ipAddress od st yr cp
                  rest ((fs.write (dmrFilePath od st yr id) body).append cp
                    (id ++ "\n"))).1).pathExists (dmrFilePath od st yr id) = true := by
                unfold FS.pathExists
                rw [hfs1fp]
                rfl
              by_cases hC2 : C2.contains id = true
              · rw [processLoop_cons_skip resp C2 startDate endDate ipAddress od st yr cp
                  id rest g hC2]
                obtain ⟨ihA, ihB, ihC⟩ := ih _ g hnodup2 hcprest hmonorest hg
                refine ⟨ihA, ?_, ?_⟩
                · rw [ihB, filter_cons_false _ _ _ (by simp only [hC2, Bool.not_true, Bool.false_and])]
                · intro i hi hic hip
                  rcases List.mem_cons.mp hi with rfl | hi2
                  · rw [hC2] at hic
                    cases hic
                  · exact ihC i hi2 hic hip
              · have hC2f : C2.contains id = false := by
                  simpa using hC2
                have hgex : g.pathExists (dmrFilePath od st yr id) = true := by
                  unfold FS.pathExists
                  rw [hg, hfs1fp]
                  rfl
                rw [processLoop_cons_go resp C2 startDate endDate ipAddress od st yr cp id
                  rest g hC2f,
                  dl_skip (resp id) id startDate endDate ipAddress od st yr cp g hgex]
                obtain ⟨ihA, ihB, ihC⟩ := ih _ g hnodup2 hcprest hmonorest hg
                refine ⟨ihA, ?_, ?_⟩
                · rw [List.nil_append, ihB,
                    filter_cons_false _ _ _ (by simp only [hfs1ex, Bool.not_true, Bool.and_false])]
                · intro i hi hic hip
                  rcases List.mem_cons.mp hi with rfl | hi2
                  · rw [hfs1ex] at hip
                    cases hip
                  · exact ihC i hi2 hic hip

/-! ## Claim C3: second-run behavior of the per-entity loop -/

/-- C3 counterexample: a key whose first-run outcome was NoDataAvailable is
not skipped on the second run — with one key answering 200 plus an html body,
the second run over the state left by the first performs one network request,
not zero. -/
theorem C3_second_run_counterexample :
    countRequests ((process_npdes_ids (fun _ => HttpResult.ok 200 "<html>no data</html>")
      ["OHX"] "01/01/2000" "12/31/2000" "1.2.3.4" "/out" "OH" "2000" "/ck/p.txt"
      (process_npdes_ids (fun _ => HttpResult.ok 200 "<html>no data</html>") ["OHX"]
        "01/01/2000" "12/31/2000" "1.2.3.4" "/out" "OH" "2000" "/ck/p.txt"
        FS.empty).1).2) = 1 := by
  decide

/-- C3 (amended): with unchanged responses, running process_npdes_ids a
second time over the state left by the first run changes no file read (the
file tree is identical); it performs exactly one request per key that is
skipped by neither the loaded checkpoint nor an existing success artifact;
and every such re-requested key is one whose response does not classify as
Success — NoDataAvailable and TransportFailure keys are re-attempted, not
skipped. -/
theorem C3_second_run_amended (resp : String → HttpResult) (ids : List String)
    (startDate endDate ipAddress od st yr cp : String) (fs : FS)
    (hnodup : ids.Nodup)
    (hcp : ∀ i ∈ ids, cp ≠ dmrFilePath od st yr i ∧ cp ≠ dmrErrorPath od st yr i)
    (hnl : ∀ i ∈ ids, '\n' ∉ i.data)
    (hwf : ckWF fs cp) :
    (∀ p, ((process_npdes_ids resp ids startDate endDate ipAddress od st yr cp
        (process_npdes_ids resp ids startDate endDate ipAddress od st yr cp
          fs).1).1).read p =
      ((process_npdes_ids resp ids startDate endDate ipAddress od st yr cp fs).1).read p) ∧
    countRequests ((process_npdes_ids resp ids startDate endDate ipAddress od st yr cp
        (process_npdes_ids resp ids startDate endDate ipAddress od st yr cp fs).1).2) =
      (List.filter (fun i =>
        !((loadCompleted (process_npdes_ids resp ids startDate endDate ipAddress od st yr
          cp fs).1 cp).contains i) &&
        !(((process_npdes_ids resp ids startDate endDate ipAddress od st yr cp
          fs).1).pathExists (dmrFilePath od st yr i))) ids).length ∧
    (∀ i ∈ ids,
      (loadCompleted (process_npdes_ids resp ids startDate endDate ipAddress od st yr cp
        fs).1 cp).contains i = false →
      ((process_npdes_ids resp ids startDate endDate ipAddress od st yr cp
        fs).1).pathExists (dmrFilePath od st yr i) = false →
      ∀ b, classify_response (resp i) ≠ Outcome.Success b) := by
  have hmono : ∀ i ∈ ids, (loadCompleted fs cp).contains i = true →
      (loadCompleted (process_npdes_ids resp ids startDate endDate ipAddress od st yr cp
        fs).1 cp).contains i = true := by
    intro i _ hc
    have hmem : i ∈ loadCompleted fs cp := by
      simpa using hc
    have := processLoop_load_mono resp (loadCompleted fs cp) startDate endDate ipAddress
      od st yr cp ids fs hcp hnl hwf i hmem
    simpa using this
  exact processLoop_idempotent resp startDate endDate ipAddress od st yr cp
    (loadCompleted fs cp)
    (loadCompleted (process_npdes_ids resp ids startDate endDate ipAddress od st yr cp
      fs).1 cp)
    ids fs
    (process_npdes_ids resp ids startDate endDate ipAddress od st yr cp fs).1
    hnodup hcp hmono (fun _ => rfl)

/-- C3 witness: the amended statement at a concrete one-key scope whose
response is a valid CSV. -/
theorem C3_second_run_amended_witness :
    (["OHX"].Nodup ∧
      (∀ i ∈ ["OHX"], "/ck/p.txt" ≠ dmrFilePath "/out" "OH" "2000" i ∧
        "/ck/p.txt" ≠ dmrErrorPath "/out" "OH" "2000" i) ∧
      (∀ i ∈ ["OHX"], '\n' ∉ i.data) ∧ ckWF FS.empty "/ck/p.txt") ∧
    countRequests ((process_npdes_ids (fun _ => HttpResult.ok 200 "c1,c2\n1,2\n")
        ["OHX"] "01/01/2000" "12/31/2000" "1.2.3.4" "/out" "OH" "2000" "/ck/p.txt"
        (process_npdes_ids (fun _ => HttpResult.ok 200 "c1,c2\n1,2\n") ["OHX"]
          "01/01/2000" "12/31/2000" "1.2.3.4" "/out" "OH" "2000" "/ck/p.txt"
          FS.empty).1).2) =
      (List.filter (fun i =>
        !((loadCompleted (process_npdes_ids (fun _ => HttpResult.ok 200 "c1,c2\n1,2\n")
          ["OHX"] "01/01/2000" "12/31/2000" "1.2.3.4" "/out" "OH" "2000" "/ck/p.txt"
          FS.empty).1 "/ck/p.txt").contains i) &&
        !(((process_npdes_ids (fun _ => HttpResult.ok 200 "c1,c2\n1,2\n") ["OHX"]
          "01/01/2000" "12/31/2000" "1.2.3.4" "/out" "OH" "2000" "/ck/p.txt"
          FS.empty).1).pathExists (dmrFilePath "/out" "OH" "2000" i))) ["OHX"]).length :=
  ⟨⟨by decide, by decide, by decide, Or.inl rfl⟩,
    (C3_second_run_amended (fun _ => HttpResult.ok 200 "c1,c2\n1,2\n") ["OHX"]
      "01/01/2000" "12/31/2000" "1.2.3.4" "/out" "OH" "2000" "/ck/p.txt" FS.empty
      (by decide) (by decide) (by decide) (Or.inl rfl)).2.1⟩
